import Mathlib

/-!
Shallow embedding of the BotFootball repository (database_service.py,
match_service.py, main.py).

Conventions:
* instants are UTC times in whole seconds (`Int`); the Python code calls
  `datetime.utcnow()` inside each operation, which we model by passing the
  current instant `now` explicitly (the injected clock of the spec);
* money amounts and odds are exact rationals (`Rat`), the decimal literals
  of the source translated exactly;
* SQLAlchemy tables are lists of rows kept in insertion order;
  `scalars().first()` becomes `List.find?`, an in-place mutation of the row
  object returned by such a query becomes `updFirst` with the same
  predicate (update of the first matching element); autoincrement primary
  keys become explicit `next_*_id` counters;
* `async` suspension, sessions, commits and the engine are not modelled:
  the spec treats the store as offering atomic read-modify-write per
  operation, so every DatabaseService method is one pure state transition.
* `get_weekly_stats` only reads and writes the separate Stats aggregate
  table and is not modelled; no claim mentions it.
-/

namespace BotFootball

def secondsPerDay : Int := 86400

def minuteSeconds : Int := 60

/-- Row of the `users` table (fields used by the modelled operations). -/
structure UserRow where
  id : Nat
  telegram_id : Int
  username : String
  trial_messages_left : Nat
  deriving Repr, DecidableEq

/-- Row of the `subscriptions` table. -/
structure Subscription where
  id : Nat
  user_id : Nat
  start_date : Int
  end_date : Int
  subscription_type : String
  price_paid : Rat
  payment_id : String
  deriving Repr, DecidableEq

/-- Row of the `payment_links` table. -/
structure PaymentLink where
  id : Nat
  telegram_user_id : Int
  unique_id : String
  subscription_type : String
  amount : Rat
  paid : Bool
  deriving Repr, DecidableEq

/-- Row of the `matches` table. -/
structure MatchRow where
  id : Nat
  home_team : String
  away_team : String
  competition : String
  match_time : Int
  odds_1 : Rat
  odds_x : Rat
  odds_2 : Rat
  notification_sent : Bool
  match_url : Option String
  deriving Repr, DecidableEq

/-- The persisted database state. -/
structure DB where
  users : List UserRow
  subscriptions : List Subscription
  payment_links : List PaymentLink
  match_rows : List MatchRow  -- the `matches` table (`matches` is a Lean keyword)
  next_user_id : Nat
  next_sub_id : Nat
  next_link_id : Nat
  next_match_id : Nat
  deriving Repr, DecidableEq

/-- Update the first element satisfying `p` (SQLAlchemy: mutate the object
returned by `scalars().first()` and commit). -/
def updFirst (p : α → Bool) (f : α → α) : List α → List α
  | [] => []
  | a :: l => if p a then f a :: l else a :: updFirst p f l

namespace DatabaseService

/-- Predicate of the active-subscription queries:
`Subscription.user_id == user_id AND Subscription.end_date >= now`. -/
def isActive (uid : Nat) (now : Int) (s : Subscription) : Bool :=
  s.user_id == uid && decide (now ≤ s.end_date)

/-- `DatabaseService.get_active_subscription` (database_service.py:138). -/
def get_active_subscription (db : DB) (user_id : Nat) (now : Int) :
    Option Subscription :=
  db.subscriptions.find? (isActive user_id now)

/-- `DatabaseService.has_active_subscription` (database_service.py:128). -/
def has_active_subscription (db : DB) (user_id : Nat) (now : Int) : Bool :=
  (get_active_subscription db user_id now).isSome

/-- `DatabaseService.get_or_create_user` (database_service.py:111);
display-name fields are irrelevant to every claim and are dropped. -/
def get_or_create_user (db : DB) (telegram_id : Int) (username : String) :
    DB × UserRow :=
  match db.users.find? (fun u => u.telegram_id == telegram_id) with
  | some u => (db, u)
  | none =>
      let u : UserRow :=
        { id := db.next_user_id, telegram_id := telegram_id,
          username := username, trial_messages_left := 3 }
      ({ db with users := db.users ++ [u], next_user_id := db.next_user_id + 1 }, u)

/-- `DatabaseService.decrement_trial_message` (database_service.py:148). -/
def decrement_trial_message (db : DB) (user_id : Nat) : DB × Nat :=
  match db.users.find? (fun u => u.id == user_id) with
  | some u =>
      if 0 < u.trial_messages_left then
        let users' := updFirst (fun v => v.id == user_id)
          (fun v => { v with trial_messages_left := v.trial_messages_left - 1 })
          db.users
        ({ db with users := users' }, u.trial_messages_left - 1)
      else (db, 0)
  | none => (db, 0)

/-- `DatabaseService.create_payment_link` (database_service.py:156); the
uuid-generated token is passed in as `token`. -/
def create_payment_link (db : DB) (telegram_user_id : Int)
    (subscription_type : String) (amount : Rat) (token : String) :
    DB × PaymentLink :=
  let link : PaymentLink :=
    { id := db.next_link_id, telegram_user_id := telegram_user_id,
      unique_id := token, subscription_type := subscription_type,
      amount := amount, paid := false }
  ({ db with payment_links := db.payment_links ++ [link],
             next_link_id := db.next_link_id + 1 }, link)

/-- Predicate of the payment-link queries: `PaymentLink.unique_id == t`. -/
def tokenMatches (t : String) (l : PaymentLink) : Bool :=
  l.unique_id == t

/-- `DatabaseService.mark_payment_as_paid` (database_service.py:175):
look up by token; if found and not yet paid, set `paid = True` and return
the row, otherwise return `None`. -/
def mark_payment_as_paid (db : DB) (unique_id : String) :
    DB × Option PaymentLink :=
  match db.payment_links.find? (tokenMatches unique_id) with
  | some l =>
      if l.paid then (db, none)
      else
        let links' := updFirst (tokenMatches unique_id)
          (fun x => { x with paid := true }) db.payment_links
        ({ db with payment_links := links' }, some { l with paid := true })
  | none => (db, none)

/-- Duration table of `create_subscription` (database_service.py:190):
week = 1 week, two_weeks = 2 weeks, month = 31 days, anything else
defaults to 1 week. -/
def subscription_duration (t : String) : Int :=
  if t = "week" then 7 * secondsPerDay
  else if t = "two_weeks" then 14 * secondsPerDay
  else if t = "month" then 31 * secondsPerDay
  else 7 * secondsPerDay

/-- Renewal update of `create_subscription` (database_service.py:203-212):
end = max(now, end) + duration, price accumulates, payment id replaced;
note that `subscription_type` is NOT touched here. -/
def extendSub (now dur : Int) (amount : Rat) (pid : String)
    (s : Subscription) : Subscription :=
  { s with end_date := max now s.end_date + dur,
           price_paid := s.price_paid + amount,
           payment_id := pid }

/-- `DatabaseService.create_subscription` (database_service.py:186). -/
def create_subscription (db : DB) (user_id : Nat) (subscription_type : String)
    (amount : Rat) (payment_id : String) (now : Int) :
    DB × Subscription × Bool :=
  let duration := subscription_duration subscription_type
  match get_active_subscription db user_id now with
  | some s =>
      let subs' := updFirst (isActive user_id now)
        (extendSub now duration amount payment_id) db.subscriptions
      ({ db with subscriptions := subs' },
       extendSub now duration amount payment_id s, true)
  | none =>
      let sub : Subscription :=
        { id := db.next_sub_id, user_id := user_id, start_date := now,
          end_date := now + duration, subscription_type := subscription_type,
          price_paid := amount, payment_id := payment_id }
      ({ db with subscriptions := db.subscriptions ++ [sub],
                 next_sub_id := db.next_sub_id + 1 }, sub, false)

/-- `func.lower` of the SQL layer: lowercase every character (written
over the character list so that it evaluates; `Char.toLower` matches the
ASCII usernames this code compares). -/
def sqlLower (s : String) : String :=
  String.mk (s.data.map Char.toLower)

/-- Case-insensitive user lookup used by the admin operations
(`func.lower(User.username) == func.lower(username)`). -/
def find_user_by_username (db : DB) (username : String) : Option UserRow :=
  db.users.find? (fun u => sqlLower u.username == sqlLower username)

/-- Duration/price table of `admin_create_subscription`
(database_service.py:241-251): week = 7 d / 650, two_weeks = 14 d / 1300,
month = 30 d / 2500, anything else is rejected (`None`). -/
def admin_plan (t : String) : Option (Int × Rat) :=
  if t = "week" then some (7 * secondsPerDay, 650)
  else if t = "two_weeks" then some (14 * secondsPerDay, 1300)
  else if t = "month" then some (30 * secondsPerDay, 2500)
  else none

/-- Renewal update of `admin_create_subscription`
(database_service.py:256-263): like `extendSub` but it also replaces
`subscription_type` with the newly granted kind. -/
def extendAdmin (now dur : Int) (price : Rat) (stype pid : String)
    (s : Subscription) : Subscription :=
  { s with end_date := max now s.end_date + dur,
           price_paid := s.price_paid + price,
           subscription_type := stype,
           payment_id := pid }

/-- `DatabaseService.admin_create_subscription` (database_service.py:231);
the generated uuid suffix of the payment id is passed in as `uuidHex`. -/
def admin_create_subscription (db : DB) (username subscription_type : String)
    (uuidHex : String) (now : Int) :
    DB × Option (Subscription × Int × Bool) :=
  match find_user_by_username db username with
  | none => (db, none)
  | some u =>
      match admin_plan subscription_type with
      | none => (db, none)
      | some dp =>
          let pid := "admin_" ++ uuidHex
          match get_active_subscription db u.id now with
          | some s =>
              let subs' := updFirst (isActive u.id now)
                (extendAdmin now dp.1 dp.2 subscription_type pid)
                db.subscriptions
              ({ db with subscriptions := subs' },
               some (extendAdmin now dp.1 dp.2 subscription_type pid s,
                     u.telegram_id, true))
          | none =>
              let sub : Subscription :=
                { id := db.next_sub_id, user_id := u.id, start_date := now,
                  end_date := now + dp.1,
                  subscription_type := subscription_type,
                  price_paid := dp.2, payment_id := pid }
              ({ db with subscriptions := db.subscriptions ++ [sub],
                         next_sub_id := db.next_sub_id + 1 },
               some (sub, u.telegram_id, false))

/-- `DatabaseService.revoke_subscription` (database_service.py:283): find
the user, find the active subscription (same query as
`get_active_subscription`), force its end one minute into the past. -/
def revoke_subscription (db : DB) (username : String) (now : Int) :
    DB × Option Int :=
  match find_user_by_username db username with
  | none => (db, none)
  | some u =>
      match get_active_subscription db u.id now with
      | none => (db, none)
      | some _ =>
          let subs' := updFirst (isActive u.id now)
            (fun s => { s with end_date := now - minuteSeconds })
            db.subscriptions
          ({ db with subscriptions := subs' }, some u.telegram_id)

/-- `DatabaseService.add_match` (database_service.py:308). -/
def add_match (db : DB) (home_team away_team competition : String)
    (match_time : Int) (odds_1 odds_x odds_2 : Rat)
    (match_url : Option String) : DB × MatchRow :=
  let m : MatchRow :=
    { id := db.next_match_id, home_team := home_team, away_team := away_team,
      competition := competition, match_time := match_time,
      odds_1 := odds_1, odds_x := odds_x, odds_2 := odds_2,
      notification_sent := false, match_url := match_url }
  ({ db with match_rows := db.match_rows ++ [m],
             next_match_id := db.next_match_id + 1 }, m)

/-- `func.round(x, 2)` on exact rationals. -/
def round2 (q : Rat) : Rat := ((round (q * 100) : Int) : Rat) / 100

/-- `func.round(x, 3)` on exact rationals. -/
def round3 (q : Rat) : Rat := ((round (q * 1000) : Int) : Rat) / 1000

/-- Filter of `get_matches_with_target_odds` (database_service.py:325):
(round(odds_1,2)=4.25 AND round(odds_2,3)=1.225 AND not notified AND
match_time >= now) OR (round(odds_1,2)=4.22 AND the same three). -/
def matchQualifies (now : Int) (m : MatchRow) : Bool :=
  (decide (round2 m.odds_1 = (4.25 : Rat)) &&
   decide (round3 m.odds_2 = (1.225 : Rat)) &&
   !m.notification_sent && decide (now ≤ m.match_time)) ||
  (decide (round2 m.odds_1 = (4.22 : Rat)) &&
   decide (round3 m.odds_2 = (1.225 : Rat)) &&
   !m.notification_sent && decide (now ≤ m.match_time))

/-- `DatabaseService.get_matches_with_target_odds` (database_service.py:325). -/
def get_matches_with_target_odds (db : DB) (now : Int) : List MatchRow :=
  db.match_rows.filter (matchQualifies now)

/-- `DatabaseService.mark_match_as_notified` (database_service.py:347):
select the match by id; if found set `notification_sent = True`. -/
def mark_match_as_notified (db : DB) (match_id : Nat) : DB :=
  let rows' := updFirst (fun m => m.id == match_id)
    (fun m => { m with notification_sent := true }) db.match_rows
  { db with match_rows := rows' }

end DatabaseService

/-! ## Odds feed and MatchService (match_service.py)

A feed entry is the JSON record of The Odds API. `commence_time` is the
already-parsed kickoff instant: `none` models an absent `commence_time`
key as well as a string `datetime.fromisoformat` cannot parse (both paths
skip the entry with a warning). A missing `price` key defaults to `0`
(`outcomes[i].get("price", 0)`). -/

structure Outcome where
  name : String
  price : Option Rat
  deriving Repr, DecidableEq

structure Market where
  key : String
  outcomes : List Outcome
  deriving Repr, DecidableEq

structure Bookmaker where
  title : String
  markets : List Market
  deriving Repr, DecidableEq

structure FeedEntry where
  id : String
  commence_time : Option Int
  bookmakers : List Bookmaker
  deriving Repr, DecidableEq

namespace FootballApiClient

/-- Outcome of the one upstream HTTP request of
`FootballApiClient.fetch_matches` (match_service.py:41): the api key can
be unset, the response status can differ from 200, the request or the
JSON decoding can raise, or the request succeeds with a payload. -/
inductive ApiResult where
  | noApiKey
  | httpError (status : Int)
  | requestFailed
  | ok (data : List FeedEntry)
  deriving Repr, DecidableEq

/-- `FootballApiClient.fetch_matches` (match_service.py:41): every failure
path logs and returns `[]`; a succeeding request returns its payload.
No exception escapes this boundary (the `except` clause returns `[]`). -/
def fetch_matches : ApiResult → List FeedEntry
  | .ok data => data
  | _ => []

end FootballApiClient

namespace MatchService

/-- Mutable state of `MatchService`: `cache` (initially `[]`),
`last_update` (initially `None`) and `cache_ttl` in seconds. -/
structure ServiceState where
  cache : List FeedEntry
  last_update : Option Int
  cache_ttl : Int
  deriving Repr, DecidableEq

/-- Refresh part of `MatchService.fetch_matches` (match_service.py:76-82):
a non-empty client result replaces the cache and resets the clock; an
empty one (failure, or a successful fetch of an empty list) leaves both
unchanged and serves the cache. -/
def refreshCache (st : ServiceState) (api : FootballApiClient.ApiResult)
    (now : Int) : ServiceState × List FeedEntry :=
  let ms := FootballApiClient.fetch_matches api
  if ms.isEmpty then (st, st.cache)
  else ({ st with cache := ms, last_update := some now }, ms)

/-- `MatchService.fetch_matches` (match_service.py:69): serve the cache
while `last_update` is set and its age is below the TTL, otherwise
refresh. The upstream response `api` is a parameter; the fresh branch
never consults it. -/
def fetch_matches (st : ServiceState) (api : FootballApiClient.ApiResult)
    (now : Int) : ServiceState × List FeedEntry :=
  match st.last_update with
  | some lu =>
      if now - lu < st.cache_ttl then (st, st.cache)
      else refreshCache st api now
  | none => refreshCache st api now

/-- Search for the first market whose key is `"h2h"`
(match_service.py:118-122). -/
def findH2h : List Market → Option Market
  | [] => none
  | m :: ms => if m.key == "h2h" then some m else findH2h ms

/-- `float(outcome.get("price", 0))`. -/
def priceVal (o : Outcome) : Rat := o.price.getD 0

/-- Per-entry filter of `check_for_matches_with_target_odds`
(match_service.py:92-136): skip entries without a parseable kickoff or
with a past kickoff; read only `bookmakers[0]`, only its first `"h2h"`
market, and only the first two outcomes; accept if either price lies in
`[min_odds, max_odds]`. -/
def entryQualifies (now : Int) (min_odds max_odds : Rat)
    (e : FeedEntry) : Bool :=
  match e.commence_time with
  | none => false
  | some t =>
      if t < now then false
      else
        match e.bookmakers with
        | [] => false
        | b :: _ =>
            match findH2h b.markets with
            | none => false
            | some mkt =>
                match mkt.outcomes with
                | o1 :: o2 :: _ =>
                    decide (min_odds ≤ priceVal o1 ∧ priceVal o1 ≤ max_odds) ||
                    decide (min_odds ≤ priceVal o2 ∧ priceVal o2 ≤ max_odds)
                | _ => false

/-- `MatchService.check_for_matches_with_target_odds`
(match_service.py:83): fetch (cache or upstream), then filter. The Python
defaults are `min_odds=1.5`, `max_odds=5.0`. -/
def check_for_matches_with_target_odds (st : ServiceState)
    (api : FootballApiClient.ApiResult) (now : Int)
    (min_odds max_odds : Rat) : ServiceState × List FeedEntry :=
  let r := fetch_matches st api now
  (r.1, r.2.filter (entryQualifies now min_odds max_odds))

/-- `MatchService.mark_match_as_notified` (match_service.py:140): the body
is `pass` — the state is returned unchanged. -/
def mark_match_as_notified (st : ServiceState) (match_id : String) :
    ServiceState :=
  st

end MatchService

/-! ## Operational steps

`Step now db db'` relates a database state to its successor under one
DatabaseService operation executed at instant `now`; `Reach` chains steps
at non-decreasing instants (UTC time never runs backwards). -/

inductive Step : Int → DB → DB → Prop where
  | getOrCreateUser (now : Int) (db : DB) (tg : Int) (uname : String) :
      Step now db (DatabaseService.get_or_create_user db tg uname).1
  | decrementTrial (now : Int) (db : DB) (uid : Nat) :
      Step now db (DatabaseService.decrement_trial_message db uid).1
  | createPaymentLink (now : Int) (db : DB) (tg : Int)
      (stype : String) (amt : Rat) (tok : String) :
      Step now db (DatabaseService.create_payment_link db tg stype amt tok).1
  | markPaymentAsPaid (now : Int) (db : DB) (tok : String) :
      Step now db (DatabaseService.mark_payment_as_paid db tok).1
  | createSubscription (now : Int) (db : DB) (uid : Nat)
      (stype : String) (amt : Rat) (pid : String) :
      Step now db (DatabaseService.create_subscription db uid stype amt pid now).1
  | adminCreateSubscription (now : Int) (db : DB)
      (uname stype uuidHex : String) :
      Step now db (DatabaseService.admin_create_subscription db uname stype uuidHex now).1
  | revokeSubscription (now : Int) (db : DB) (uname : String) :
      Step now db (DatabaseService.revoke_subscription db uname now).1
  | addMatch (now : Int) (db : DB) (h a c : String) (mt : Int)
      (o1 ox o2 : Rat) (url : Option String) :
      Step now db (DatabaseService.add_match db h a c mt o1 ox o2 url).1
  | markMatchAsNotified (now : Int) (db : DB) (mid : Nat) :
      Step now db (DatabaseService.mark_match_as_notified db mid)

inductive Reach : Int → DB → Int → DB → Prop where
  | refl (t : Int) (db : DB) : Reach t db t db
  | step {t : Int} {db : DB} {t' : Int} {db' : DB} {t'' : Int}
      {db'' : DB} :
      Reach t db t' db' → t' ≤ t'' → Step t'' db' db'' → Reach t db t'' db''

/-! ## Helper lemmas about `updFirst`, `List.find?` and `List.filter` -/

theorem length_filter_updFirst_le {α : Type} (p q : α → Bool) (f : α → α)
    (l : List α) (h : ∀ a, p a = true → q (f a) = true → q a = true) :
    ((updFirst p f l).filter q).length ≤ (l.filter q).length := by
  induction l with
  | nil => simp [updFirst]
  | cons a l ih =>
      cases hp : p a with
      | true =>
          cases hq : q (f a) with
          | true =>
              have hqa := h a hp hq
              simp [updFirst, hp, List.filter_cons, hq, hqa]
          | false =>
              cases hqa : q a <;>
                simp [updFirst, hp, List.filter_cons, hq, hqa, Nat.le_succ]
      | false =>
          cases hqa : q a with
          | true =>
              simp only [updFirst, hp, Bool.false_eq_true, if_false,
                List.filter_cons, hqa, if_true, List.length_cons]
              omega
          | false =>
              simp only [updFirst, hp, Bool.false_eq_true, if_false,
                List.filter_cons, hqa]
              exact ih

theorem length_filter_le_of_imp {α : Type} (p q : α → Bool) (l : List α)
    (h : ∀ a, p a = true → q a = true) :
    (l.filter p).length ≤ (l.filter q).length := by
  induction l with
  | nil => simp
  | cons a l ih =>
      cases hp : p a with
      | true => simp [List.filter_cons, hp, h a hp]; omega
      | false =>
          cases hq : q a <;> simp [List.filter_cons, hp, hq] <;> omega

theorem find?_updFirst_none {α : Type} (p : α → Bool) (f : α → α)
    (l : List α) (hcount : (l.filter p).length ≤ 1)
    (hf : ∀ a, p (f a) = false) : (updFirst p f l).find? p = none := by
  induction l with
  | nil => simp [updFirst]
  | cons a l ih =>
      cases hp : p a with
      | true =>
          have hl : l.filter p = [] := by
            rw [List.filter_cons, hp] at hcount
            simp only [if_true, List.length_cons] at hcount
            exact List.length_eq_zero.mp (by omega)
          have hnone : l.find? p = none := by
            rw [List.find?_eq_none]
            intro x hx hpx
            have hmem : x ∈ l.filter p := List.mem_filter.mpr ⟨hx, hpx⟩
            rw [hl] at hmem
            exact absurd hmem (List.not_mem_nil x)
          simp [updFirst, hp, List.find?_cons_of_neg, hf a, hnone]
      | false =>
          have hcount' : (l.filter p).length ≤ 1 := by
            rw [List.filter_cons, hp] at hcount
            simpa using hcount
          simp [updFirst, hp, List.find?_cons_of_neg, ih hcount']

theorem updFirst_mem_of_find? {α : Type} (p : α → Bool) (f : α → α)
    {l : List α} {x : α} (h : l.find? p = some x) :
    f x ∈ updFirst p f l := by
  induction l with
  | nil => simp at h
  | cons a l ih =>
      cases hp : p a with
      | true =>
          rw [List.find?_cons_of_pos _ hp] at h
          cases h
          simp [updFirst, hp]
      | false =>
          rw [List.find?_cons_of_neg _ (by simp [hp])] at h
          simp [updFirst, hp, ih h]

theorem find?_updFirst_map {α : Type} (p : α → Bool) (f : α → α)
    (hpf : ∀ a, p (f a) = p a) (l : List α) :
    (updFirst p f l).find? p = (l.find? p).map f := by
  induction l with
  | nil => simp [updFirst]
  | cons a l ih =>
      cases hp : p a with
      | true =>
          have : p (f a) = true := by rw [hpf]; exact hp
          simp [updFirst, hp, List.find?_cons_of_pos, this]
      | false =>
          simp [updFirst, hp, List.find?_cons_of_neg, ih]

theorem find?_updFirst_other {α : Type} (p q : α → Bool) (f : α → α)
    (l : List α) (h : ∀ a, p a = true → q a = false ∧ q (f a) = false) :
    (updFirst p f l).find? q = l.find? q := by
  induction l with
  | nil => simp [updFirst]
  | cons a l ih =>
      cases hp : p a with
      | true =>
          have h1 := (h a hp).1
          have h2 := (h a hp).2
          simp [updFirst, hp, List.find?_cons_of_neg, h1, h2]
      | false =>
          cases hq : q a with
          | true => simp [updFirst, hp, List.find?_cons_of_pos, hq]
          | false => simp [updFirst, hp, List.find?_cons_of_neg, hq, ih]

theorem mem_updFirst {α : Type} {p : α → Bool} {f : α → α} {l : List α}
    {x : α} (hx : x ∈ updFirst p f l) :
    x ∈ l ∨ ∃ a, a ∈ l ∧ p a = true ∧ x = f a := by
  induction l with
  | nil => simp [updFirst] at hx
  | cons a l ih =>
      cases hp : p a with
      | true =>
          rw [updFirst, hp, if_pos rfl] at hx
          rcases List.mem_cons.mp hx with h | h
          · exact Or.inr ⟨a, List.mem_cons_self a l, hp, h⟩
          · exact Or.inl (List.mem_cons_of_mem a h)
      | false =>
          rw [updFirst, hp] at hx
          simp only [Bool.false_eq_true, if_false] at hx
          rcases List.mem_cons.mp hx with h | h
          · exact Or.inl (h ▸ List.mem_cons_self a l)
          · rcases ih h with h' | ⟨b, hb, hpb, hfb⟩
            · exact Or.inl (List.mem_cons_of_mem a h')
            · exact Or.inr ⟨b, List.mem_cons_of_mem a hb, hpb, hfb⟩

theorem find?_append_of_some {α : Type} {p : α → Bool} {l₁ l₂ : List α}
    {x : α} (h : l₁.find? p = some x) : (l₁ ++ l₂).find? p = some x := by
  induction l₁ with
  | nil => simp at h
  | cons a l ih =>
      cases hp : p a with
      | true =>
          rw [List.find?_cons_of_pos _ hp] at h
          rw [List.cons_append, List.find?_cons_of_pos _ hp]
          exact h
      | false =>
          rw [List.find?_cons_of_neg _ (by simp [hp])] at h
          rw [List.cons_append, List.find?_cons_of_neg _ (by simp [hp])]
          exact ih h

theorem frame_get_or_create_user (db : DB) (tg : Int) (un : String) :
    (DatabaseService.get_or_create_user db tg un).1.subscriptions = db.subscriptions ∧
    (DatabaseService.get_or_create_user db tg un).1.payment_links = db.payment_links ∧
    (DatabaseService.get_or_create_user db tg un).1.match_rows = db.match_rows ∧
    (DatabaseService.get_or_create_user db tg un).1.next_match_id = db.next_match_id := by
  unfold DatabaseService.get_or_create_user
  cases hf : db.users.find? (fun u => u.telegram_id == tg) <;> simp [hf]

theorem frame_decrement_trial (db : DB) (uid : Nat) :
    (DatabaseService.decrement_trial_message db uid).1.subscriptions = db.subscriptions ∧
    (DatabaseService.decrement_trial_message db uid).1.payment_links = db.payment_links ∧
    (DatabaseService.decrement_trial_message db uid).1.match_rows = db.match_rows ∧
    (DatabaseService.decrement_trial_message db uid).1.next_match_id = db.next_match_id := by
  unfold DatabaseService.decrement_trial_message
  cases hf : db.users.find? (fun u => u.id == uid) with
  | none => simp [hf]
  | some u =>
      by_cases h0 : 0 < u.trial_messages_left <;> simp [hf, h0]

theorem frame_create_payment_link (db : DB) (tg : Int) (stype : String)
    (amt : Rat) (tok : String) :
    (DatabaseService.create_payment_link db tg stype amt tok).1.subscriptions = db.subscriptions ∧
    (DatabaseService.create_payment_link db tg stype amt tok).1.match_rows = db.match_rows ∧
    (DatabaseService.create_payment_link db tg stype amt tok).1.next_match_id = db.next_match_id := by
  simp [DatabaseService.create_payment_link]

theorem frame_mark_payment_as_paid (db : DB) (tok : String) :
    (DatabaseService.mark_payment_as_paid db tok).1.subscriptions = db.subscriptions ∧
    (DatabaseService.mark_payment_as_paid db tok).1.match_rows = db.match_rows ∧
    (DatabaseService.mark_payment_as_paid db tok).1.next_match_id = db.next_match_id := by
  unfold DatabaseService.mark_payment_as_paid
  cases hf : db.payment_links.find? (DatabaseService.tokenMatches tok) with
  | none => simp [hf]
  | some l => by_cases hp : l.paid <;> simp [hf, hp]

theorem frame_create_subscription (db : DB) (uid : Nat) (stype : String)
    (amt : Rat) (pid : String) (now : Int) :
    (DatabaseService.create_subscription db uid stype amt pid now).1.payment_links = db.payment_links ∧
    (DatabaseService.create_subscription db uid stype amt pid now).1.match_rows = db.match_rows ∧
    (DatabaseService.create_subscription db uid stype amt pid now).1.next_match_id = db.next_match_id := by
  unfold DatabaseService.create_subscription
  cases hf : DatabaseService.get_active_subscription db uid now <;> simp [hf]

theorem frame_admin_create_subscription (db : DB) (un stype uu : String)
    (now : Int) :
    (DatabaseService.admin_create_subscription db un stype uu now).1.payment_links = db.payment_links ∧
    (DatabaseService.admin_create_subscription db un stype uu now).1.match_rows = db.match_rows ∧
    (DatabaseService.admin_create_subscription db un stype uu now).1.next_match_id = db.next_match_id := by
  unfold DatabaseService.admin_create_subscription
  cases hu : DatabaseService.find_user_by_username db un with
  | none => simp [hu]
  | some u =>
      cases hp : DatabaseService.admin_plan stype with
      | none => simp [hu, hp]
      | some dp =>
          cases hs : DatabaseService.get_active_subscription db u.id now <;>
            simp [hu, hp, hs]

theorem frame_revoke_subscription (db : DB) (un : String) (now : Int) :
    (DatabaseService.revoke_subscription db un now).1.payment_links = db.payment_links ∧
    (DatabaseService.revoke_subscription db un now).1.match_rows = db.match_rows ∧
    (DatabaseService.revoke_subscription db un now).1.next_match_id = db.next_match_id := by
  unfold DatabaseService.revoke_subscription
  cases hu : DatabaseService.find_user_by_username db un with
  | none => simp [hu]
  | some u =>
      cases hs : DatabaseService.get_active_subscription db u.id now <;>
        simp [hu, hs]

theorem frame_add_match (db : DB) (h a c : String) (mt : Int)
    (o1 ox o2 : Rat) (url : Option String) :
    (DatabaseService.add_match db h a c mt o1 ox o2 url).1.subscriptions = db.subscriptions ∧
    (DatabaseService.add_match db h a c mt o1 ox o2 url).1.payment_links = db.payment_links := by
  simp [DatabaseService.add_match]

theorem frame_mark_match_as_notified (db : DB) (mid : Nat) :
    (DatabaseService.mark_match_as_notified db mid).subscriptions = db.subscriptions ∧
    (DatabaseService.mark_match_as_notified db mid).payment_links = db.payment_links ∧
    (DatabaseService.mark_match_as_notified db mid).next_match_id = db.next_match_id := by
  simp [DatabaseService.mark_match_as_notified]

/-! ## The at-most-one-active-subscription invariant -/

/-- Number of rows of the `subscriptions` table belonging to `uid` whose
end instant is ≥ `t`. -/
def activeCount (db : DB) (uid : Nat) (t : Int) : Nat :=
  (db.subscriptions.filter (DatabaseService.isActive uid t)).length

/-- Every user has at most one subscription row with end instant ≥ `t`. -/
def AtMostOneActive (t : Int) (db : DB) : Prop :=
  ∀ uid, activeCount db uid t ≤ 1

theorem activeCount_congr {db db' : DB}
    (h : db'.subscriptions = db.subscriptions) (uid : Nat) (t : Int) :
    activeCount db' uid t = activeCount db uid t := by
  simp [activeCount, h]

theorem atMostOne_mono {t t' : Int} (h : t ≤ t') {db : DB}
    (hinv : AtMostOneActive t db) : AtMostOneActive t' db := by
  intro uid
  refine le_trans (length_filter_le_of_imp _ _ _ ?_) (hinv uid)
  intro a hpa
  simp only [DatabaseService.isActive, Bool.and_eq_true, decide_eq_true_eq]
    at hpa ⊢
  exact ⟨hpa.1, le_trans h hpa.2⟩

theorem create_subscription_atMostOne (db : DB) (uid : Nat) (stype : String)
    (amt : Rat) (pid : String) (now : Int)
    (hinv : AtMostOneActive now db) :
    AtMostOneActive now (DatabaseService.create_subscription db uid stype amt pid now).1 := by
  intro uid'
  unfold DatabaseService.create_subscription
  cases hact : DatabaseService.get_active_subscription db uid now with
  | some s =>
      simp only [hact, activeCount]
      refine le_trans (length_filter_updFirst_le _ _ _ _ ?_) (hinv uid')
      intro a hpa hqfa
      simp only [DatabaseService.isActive, DatabaseService.extendSub,
        Bool.and_eq_true, decide_eq_true_eq] at hpa hqfa ⊢
      exact ⟨hqfa.1, hpa.2⟩
  | none =>
      simp only [hact, activeCount, List.filter_append, List.length_append]
      cases hq : DatabaseService.isActive uid' now
          { id := db.next_sub_id, user_id := uid, start_date := now,
            end_date := now + DatabaseService.subscription_duration stype,
            subscription_type := stype, price_paid := amt,
            payment_id := pid } with
      | false =>
          simp only [List.filter_cons, hq, Bool.false_eq_true, if_false,
            List.filter_nil, List.length_nil, Nat.add_zero]
          exact hinv uid'
      | true =>
          have huid : uid = uid' := by
            simp only [DatabaseService.isActive, Bool.and_eq_true,
              beq_iff_eq, decide_eq_true_eq] at hq
            exact hq.1
          have hnil : db.subscriptions.filter (DatabaseService.isActive uid' now) = [] := by
            have hnone := List.find?_eq_none.mp hact
            rw [List.eq_nil_iff_forall_not_mem]
            intro x hx
            rcases List.mem_filter.mp hx with ⟨hmem, hpx⟩
            exact hnone x hmem (huid ▸ hpx)
          simp [List.filter_cons, hq, hnil]

theorem admin_create_subscription_atMostOne (db : DB) (un stype uu : String)
    (now : Int) (hinv : AtMostOneActive now db) :
    AtMostOneActive now (DatabaseService.admin_create_subscription db un stype uu now).1 := by
  intro uid'
  unfold DatabaseService.admin_create_subscription
  cases hu : DatabaseService.find_user_by_username db un with
  | none => simpa [hu, activeCount] using hinv uid'
  | some u =>
      cases hp : DatabaseService.admin_plan stype with
      | none => simpa [hu, hp, activeCount] using hinv uid'
      | some dp =>
          cases hact : DatabaseService.get_active_subscription db u.id now with
          | some s =>
              simp only [hu, hp, hact, activeCount]
              refine le_trans (length_filter_updFirst_le _ _ _ _ ?_) (hinv uid')
              intro a hpa hqfa
              simp only [DatabaseService.isActive, DatabaseService.extendAdmin,
                Bool.and_eq_true, decide_eq_true_eq] at hpa hqfa ⊢
              exact ⟨hqfa.1, hpa.2⟩
          | none =>
              simp only [hu, hp, hact, activeCount, List.filter_append,
                List.length_append]
              cases hq : DatabaseService.isActive uid' now
                  { id := db.next_sub_id, user_id := u.id, start_date := now,
                    end_date := now + dp.1, subscription_type := stype,
                    price_paid := dp.2, payment_id := "admin_" ++ uu } with
              | false =>
                  simp only [List.filter_cons, hq, Bool.false_eq_true,
                    if_false, List.filter_nil, List.length_nil, Nat.add_zero]
                  exact hinv uid'
              | true =>
                  have huid : u.id = uid' := by
                    simp only [DatabaseService.isActive, Bool.and_eq_true,
                      beq_iff_eq, decide_eq_true_eq] at hq
                    exact hq.1
                  have hnil : db.subscriptions.filter (DatabaseService.isActive uid' now) = [] := by
                    have hnone := List.find?_eq_none.mp hact
                    rw [List.eq_nil_iff_forall_not_mem]
                    intro x hx
                    rcases List.mem_filter.mp hx with ⟨hmem, hpx⟩
                    exact hnone x hmem (huid ▸ hpx)
                  simp [List.filter_cons, hq, hnil]

theorem revoke_subscription_atMostOne (db : DB) (un : String) (now : Int)
    (hinv : AtMostOneActive now db) :
    AtMostOneActive now (DatabaseService.revoke_subscription db un now).1 := by
  intro uid'
  unfold DatabaseService.revoke_subscription
  cases hu : DatabaseService.find_user_by_username db un with
  | none => simpa [hu, activeCount] using hinv uid'
  | some u =>
      cases hact : DatabaseService.get_active_subscription db u.id now with
      | none => simpa [hu, hact, activeCount] using hinv uid'
      | some s =>
          simp only [hu, hact, activeCount]
          refine le_trans (length_filter_updFirst_le _ _ _ _ ?_) (hinv uid')
          intro a hpa hqfa
          exfalso
          dsimp only [DatabaseService.isActive] at hqfa
          simp only [Bool.and_eq_true, decide_eq_true_eq, minuteSeconds] at hqfa
          omega

theorem step_preserves_atMostOne {now : Int} {db db' : DB}
    (hs : Step now db db') (hinv : AtMostOneActive now db) :
    AtMostOneActive now db' := by
  cases hs with
  | getOrCreateUser tg un =>
      intro uid
      rw [activeCount_congr (frame_get_or_create_user db tg un).1]
      exact hinv uid
  | decrementTrial uid0 =>
      intro uid
      rw [activeCount_congr (frame_decrement_trial db uid0).1]
      exact hinv uid
  | createPaymentLink tg stype amt tok =>
      intro uid
      rw [activeCount_congr (frame_create_payment_link db tg stype amt tok).1]
      exact hinv uid
  | markPaymentAsPaid tok =>
      intro uid
      rw [activeCount_congr (frame_mark_payment_as_paid db tok).1]
      exact hinv uid
  | createSubscription uid0 stype amt pid =>
      exact create_subscription_atMostOne db uid0 stype amt pid now hinv
  | adminCreateSubscription un stype uu =>
      exact admin_create_subscription_atMostOne db un stype uu now hinv
  | revokeSubscription un =>
      exact revoke_subscription_atMostOne db un now hinv
  | addMatch h a c mt o1 ox o2 url =>
      intro uid
      rw [activeCount_congr (frame_add_match db h a c mt o1 ox o2 url).1]
      exact hinv uid
  | markMatchAsNotified mid =>
      intro uid
      rw [activeCount_congr (frame_mark_match_as_notified db mid).1]
      exact hinv uid

theorem reach_preserves_atMostOne {t : Int} {db : DB} {t' : Int}
    {db' : DB} (hr : Reach t db t' db') (hinv : AtMostOneActive t db) :
    AtMostOneActive t' db' := by
  induction hr with
  | refl => exact hinv
  | step hr hle hs ih => exact step_preserves_atMostOne hs (atMostOne_mono hle ih)

/-! ## The once-notified-always-notified invariant -/

/-- Every persisted match row with id `i` has its notified flag set, and
`i` is below the id allocator, so no future row can reuse it. -/
def NotifiedAt (i : Nat) (db : DB) : Prop :=
  (∀ m ∈ db.match_rows, m.id = i → m.notification_sent = true) ∧
  i < db.next_match_id

theorem notifiedAt_congr {i : Nat} {db db' : DB}
    (hm : db'.match_rows = db.match_rows)
    (hn : db'.next_match_id = db.next_match_id) (h : NotifiedAt i db) :
    NotifiedAt i db' := by
  constructor
  · rw [hm]; exact h.1
  · rw [hn]; exact h.2

theorem mark_match_preserves_notifiedAt (db : DB) (mid : Nat) {i : Nat}
    (h : NotifiedAt i db) :
    NotifiedAt i (DatabaseService.mark_match_as_notified db mid) := by
  constructor
  · intro m hm hid
    rcases mem_updFirst hm with hmem | ⟨a, ha, hpa, hfa⟩
    · exact h.1 m hmem hid
    · rw [hfa]
  · exact h.2

theorem add_match_preserves_notifiedAt (db : DB) (hh aa cc : String)
    (mt : Int) (o1 ox o2 : Rat) (url : Option String) {i : Nat}
    (h : NotifiedAt i db) :
    NotifiedAt i (DatabaseService.add_match db hh aa cc mt o1 ox o2 url).1 := by
  obtain ⟨h1, h2⟩ := h
  constructor
  · intro m hm hid
    simp only [DatabaseService.add_match, List.mem_append,
      List.mem_singleton] at hm
    rcases hm with hmem | rfl
    · exact h1 m hmem hid
    · exfalso
      simp only at hid
      omega
  · simp only [DatabaseService.add_match]
    omega

theorem step_preserves_notifiedAt {now : Int} {db db' : DB} {i : Nat}
    (hs : Step now db db') (h : NotifiedAt i db) : NotifiedAt i db' := by
  cases hs with
  | getOrCreateUser tg un =>
      exact notifiedAt_congr (frame_get_or_create_user db tg un).2.2.1
        (frame_get_or_create_user db tg un).2.2.2 h
  | decrementTrial uid0 =>
      exact notifiedAt_congr (frame_decrement_trial db uid0).2.2.1
        (frame_decrement_trial db uid0).2.2.2 h
  | createPaymentLink tg stype amt tok =>
      exact notifiedAt_congr (frame_create_payment_link db tg stype amt tok).2.1
        (frame_create_payment_link db tg stype amt tok).2.2 h
  | markPaymentAsPaid tok =>
      exact notifiedAt_congr (frame_mark_payment_as_paid db tok).2.1
        (frame_mark_payment_as_paid db tok).2.2 h
  | createSubscription uid0 stype amt pid =>
      exact notifiedAt_congr (frame_create_subscription db uid0 stype amt pid now).2.1
        (frame_create_subscription db uid0 stype amt pid now).2.2 h
  | adminCreateSubscription un stype uu =>
      exact notifiedAt_congr (frame_admin_create_subscription db un stype uu now).2.1
        (frame_admin_create_subscription db un stype uu now).2.2 h
  | revokeSubscription un =>
      exact notifiedAt_congr (frame_revoke_subscription db un now).2.1
        (frame_revoke_subscription db un now).2.2 h
  | addMatch hh aa cc mt o1 ox o2 url =>
      exact add_match_preserves_notifiedAt db hh aa cc mt o1 ox o2 url h
  | markMatchAsNotified mid =>
      exact mark_match_preserves_notifiedAt db mid h

theorem reach_preserves_notifiedAt {t : Int} {db : DB} {t' : Int} {db' : DB}
    {i : Nat} (hr : Reach t db t' db') (h : NotifiedAt i db) :
    NotifiedAt i db' := by
  induction hr with
  | refl => exact h
  | step hr hle hs ih => exact step_preserves_notifiedAt hs ih

theorem mark_establishes_notifiedAt (db : DB) (i : Nat)
    (hpw : db.match_rows.Pairwise (fun a b => a.id ≠ b.id))
    (hbound : ∀ m ∈ db.match_rows, m.id < db.next_match_id)
    (hex : ∃ m ∈ db.match_rows, m.id = i) :
    NotifiedAt i (DatabaseService.mark_match_as_notified db i) := by
  constructor
  · have main : ∀ (l : List MatchRow),
        l.Pairwise (fun a b => a.id ≠ b.id) →
        ∀ m ∈ updFirst (fun m => m.id == i)
            (fun m => { m with notification_sent := true }) l,
          m.id = i → m.notification_sent = true := by
      intro l
      induction l with
      | nil =>
          intro _ m hm
          simp [updFirst] at hm
      | cons a l ih =>
          intro hpw' m hm hid
          rcases List.pairwise_cons.mp hpw' with ⟨hane, hpl⟩
          by_cases hpa : (a.id == i) = true
          · simp only [updFirst, hpa, if_true] at hm
            rcases List.mem_cons.mp hm with rfl | hmem
            · rfl
            · exfalso
              have ha : a.id = i := by simpa using hpa
              exact hane m hmem (by rw [ha, hid])
          · simp only [updFirst, hpa, if_false] at hm
            rcases List.mem_cons.mp hm with rfl | hmem
            · exact absurd (by simp [hid]) hpa
            · exact ih hpl m hmem hid
    exact fun m hm hid => main db.match_rows hpw m hm hid
  · obtain ⟨m, hm, hid⟩ := hex
    have := hbound m hm
    simp only [DatabaseService.mark_match_as_notified]
    omega

theorem notifiedAt_excluded {i : Nat} {db' : DB} (h : NotifiedAt i db')
    (now : Int) :
    ∀ m ∈ DatabaseService.get_matches_with_target_odds db' now, m.id ≠ i := by
  intro m hm hid
  rcases List.mem_filter.mp hm with ⟨hmem, hq⟩
  have hns := h.1 m hmem hid
  simp [DatabaseService.matchQualifies, hns] at hq

/-! ## The settled-flag (paid) invariant -/

/-- The first payment link carrying token `tok` is settled. -/
def PaidAt (db : DB) (tok : String) : Prop :=
  ∃ l, db.payment_links.find? (DatabaseService.tokenMatches tok) = some l ∧
    l.paid = true

theorem paidAt_congr {db db' : DB} {tok : String}
    (hm : db'.payment_links = db.payment_links) (h : PaidAt db tok) :
    PaidAt db' tok := by
  rw [PaidAt, hm]; exact h

theorem create_payment_link_preserves_paidAt (db : DB) (tg : Int)
    (stype : String) (amt : Rat) (tok0 : String) {tok : String}
    (h : PaidAt db tok) :
    PaidAt (DatabaseService.create_payment_link db tg stype amt tok0).1 tok := by
  obtain ⟨l, hf, hp⟩ := h
  exact ⟨l, find?_append_of_some hf, hp⟩

theorem mark_payment_preserves_paidAt (db : DB) (tok' : String) {tok : String}
    (h : PaidAt db tok) :
    PaidAt (DatabaseService.mark_payment_as_paid db tok').1 tok := by
  obtain ⟨l, hf, hp⟩ := h
  unfold DatabaseService.mark_payment_as_paid
  cases hf' : db.payment_links.find? (DatabaseService.tokenMatches tok') with
  | none => exact ⟨l, hf, hp⟩
  | some l' =>
      by_cases hp' : l'.paid
      · simp only [hf', hp', if_true]
        exact ⟨l, hf, hp⟩
      · simp only [hf', hp', Bool.false_eq_true, if_false]
        by_cases heq : tok = tok'
        · subst heq
          rw [hf] at hf'
          cases hf'
          exact absurd hp hp'
        · refine ⟨l, ?_, hp⟩
          rw [find?_updFirst_other]
          · exact hf
          · intro a hpa
            have ha : a.unique_id = tok' := by
              simpa [DatabaseService.tokenMatches] using hpa
            constructor
            · simp [DatabaseService.tokenMatches, ha]
              exact fun hcon => heq hcon.symm
            · simp [DatabaseService.tokenMatches, ha]
              exact fun hcon => heq hcon.symm

theorem step_preserves_paidAt {now : Int} {db db' : DB} {tok : String}
    (hs : Step now db db') (h : PaidAt db tok) : PaidAt db' tok := by
  cases hs with
  | getOrCreateUser tg un =>
      exact paidAt_congr (frame_get_or_create_user db tg un).2.1 h
  | decrementTrial uid0 =>
      exact paidAt_congr (frame_decrement_trial db uid0).2.1 h
  | createPaymentLink tg stype amt tok0 =>
      exact create_payment_link_preserves_paidAt db tg stype amt tok0 h
  | markPaymentAsPaid tok0 =>
      exact mark_payment_preserves_paidAt db tok0 h
  | createSubscription uid0 stype amt pid =>
      exact paidAt_congr (frame_create_subscription db uid0 stype amt pid now).1 h
  | adminCreateSubscription un stype uu =>
      exact paidAt_congr (frame_admin_create_subscription db un stype uu now).1 h
  | revokeSubscription un =>
      exact paidAt_congr (frame_revoke_subscription db un now).1 h
  | addMatch hh aa cc mt o1 ox o2 url =>
      exact paidAt_congr (frame_add_match db hh aa cc mt o1 ox o2 url).2 h
  | markMatchAsNotified mid =>
      exact paidAt_congr (frame_mark_match_as_notified db mid).2.1 h

theorem reach_preserves_paidAt {t : Int} {db : DB} {t' : Int} {db' : DB}
    {tok : String} (hr : Reach t db t' db') (h : PaidAt db tok) :
    PaidAt db' tok := by
  induction hr with
  | refl => exact h
  | step hr hle hs ih => exact step_preserves_paidAt hs ih

theorem mark_payment_establishes_paidAt (db : DB) (tok : String)
    {l : PaymentLink}
    (hf : db.payment_links.find? (DatabaseService.tokenMatches tok) = some l)
    (hp : l.paid = false) :
    PaidAt (DatabaseService.mark_payment_as_paid db tok).1 tok := by
  unfold DatabaseService.mark_payment_as_paid
  simp only [hf, hp, Bool.false_eq_true, if_false]
  refine ⟨{ l with paid := true }, ?_, rfl⟩
  rw [find?_updFirst_map (DatabaseService.tokenMatches tok)
    (fun x => { x with paid := true }) (fun a => rfl) db.payment_links, hf]
  rfl

theorem paidAt_redeem_none {db : DB} {tok : String} (h : PaidAt db tok) :
    DatabaseService.mark_payment_as_paid db tok = (db, none) := by
  obtain ⟨l, hf, hp⟩ := h
  unfold DatabaseService.mark_payment_as_paid
  simp [hf, hp]

/-! ## Cache staleness -/

/-- The Python guard `self.last_update and age < self.cache_ttl` fails:
either no fetch ever succeeded, or the cached snapshot has aged past the
TTL. -/
def Expired (st : MatchService.ServiceState) (now : Int) : Prop :=
  st.last_update = none ∨
  ∃ lu, st.last_update = some lu ∧ st.cache_ttl ≤ now - lu

theorem updFirst_idem {α : Type} (p : α → Bool) (f : α → α)
    (hpf : ∀ a, p (f a) = p a) (hff : ∀ a, f (f a) = f a) (l : List α) :
    updFirst p f (updFirst p f l) = updFirst p f l := by
  induction l with
  | nil => simp [updFirst]
  | cons a l ih =>
      cases hp : p a with
      | true =>
          have : p (f a) = true := by rw [hpf]; exact hp
          simp [updFirst, hp, this, hff]
      | false =>
          simp [updFirst, hp, ih]

/-! ## Concrete fixtures used by witnesses and counterexamples -/

def dbEmpty : DB :=
  { users := [], subscriptions := [], payment_links := [], match_rows := [],
    next_user_id := 1, next_sub_id := 1, next_link_id := 1, next_match_id := 1 }

def aliceU : UserRow :=
  { id := 1, telegram_id := 100, username := "Alice", trial_messages_left := 3 }

def subWeek : Subscription :=
  { id := 1, user_id := 1, start_date := 0, end_date := 604800,
    subscription_type := "week", price_paid := 650, payment_id := "p1" }

def dbAlice : DB := { dbEmpty with users := [aliceU], next_user_id := 2 }

def dbAliceActive : DB :=
  { dbEmpty with users := [aliceU], next_user_id := 2,
                 subscriptions := [subWeek], next_sub_id := 2 }

def linkL : PaymentLink :=
  { id := 1, telegram_user_id := 100, unique_id := "tok123",
    subscription_type := "week", amount := 650, paid := false }

def dbLink : DB := { dbEmpty with payment_links := [linkL], next_link_id := 2 }

def rowM : MatchRow :=
  { id := 1, home_team := "H", away_team := "A", competition := "EPL",
    match_time := 1000, odds_1 := 4.25, odds_x := 3, odds_2 := 1.225,
    notification_sent := false, match_url := none }

def dbMatch : DB := { dbEmpty with match_rows := [rowM], next_match_id := 2 }

def outH : Outcome := { name := "H", price := some 2 }

def outA : Outcome := { name := "A", price := some 3 }

def h2hMkt : Market := { key := "h2h", outcomes := [outH, outA] }

def bk1 : Bookmaker := { title := "bk", markets := [h2hMkt] }

def entryE : FeedEntry :=
  { id := "42", commence_time := some 100, bookmakers := [bk1] }

def stFresh : MatchService.ServiceState :=
  { cache := [entryE], last_update := some 0, cache_ttl := 600 }

/-! ## Claim theorems -/

/-- C6: every ledger operation (paid create/extend, admin grant, revoke —
and every other modelled operation) preserves the invariant that each
user has at most one subscription row with end instant ≥ now, for any
sequence of operations at non-decreasing instants; `get_active_subscription`
returns at most one row (it is an `Option`) and any returned row belongs
to the queried user and has end ≥ now; and `create_subscription` creates a
new row exactly when no unexpired row exists (otherwise it extends in
place, reporting a renewal). -/
theorem at_most_one_active_invariant :
    (∀ (t : Int) (db : DB) (t' : Int) (db' : DB), Reach t db t' db' →
        AtMostOneActive t db → AtMostOneActive t' db') ∧
    (∀ (db : DB) (uid : Nat) (now : Int) (s : Subscription),
        DatabaseService.get_active_subscription db uid now = some s →
        s.user_id = uid ∧ now ≤ s.end_date) ∧
    (∀ (db : DB) (uid : Nat) (stype : String) (amt : Rat) (pid : String)
        (now : Int),
        (DatabaseService.create_subscription db uid stype amt pid now).2.2 = false ↔
        DatabaseService.get_active_subscription db uid now = none) := by
  refine ⟨fun t db t' db' hr hinv => reach_preserves_atMostOne hr hinv, ?_, ?_⟩
  · intro db uid now s hf
    have := List.find?_some hf
    simpa [DatabaseService.isActive] using this
  · intro db uid stype amt pid now
    unfold DatabaseService.create_subscription
    cases hact : DatabaseService.get_active_subscription db uid now <;>
      simp [hact]

/-- Witness for C6: creating a subscription for Alice in a ledger with no
subscription rows yields a state in which Alice has at most one active
row; and the concrete active row returned by `get_active_subscription`
belongs to Alice with end ≥ now. -/
theorem at_most_one_active_invariant_witness :
    activeCount (DatabaseService.create_subscription dbAlice 1 "week" 650 "pw" 0).1 1 0 ≤ 1 ∧
    subWeek.user_id = 1 ∧ (0 : Int) ≤ subWeek.end_date ∧
    ((DatabaseService.create_subscription dbAlice 1 "week" 650 "pw" 0).2.2 = false ↔
      DatabaseService.get_active_subscription dbAlice 1 0 = none) := by
  refine ⟨?_, ?_, ?_⟩
  · exact (at_most_one_active_invariant.1 0 dbAlice 0 _
      (Reach.step (Reach.refl 0 dbAlice) (le_refl 0)
        (Step.createSubscription 0 dbAlice 1 "week" 650 "pw"))
      (fun uid => by simp [activeCount, dbAlice, dbEmpty])) 1
  · exact (at_most_one_active_invariant.2.1 dbAliceActive 1 0 subWeek (by rfl)).1
  · refine ⟨(at_most_one_active_invariant.2.1 dbAliceActive 1 0 subWeek (by rfl)).2, ?_⟩
    exact at_most_one_active_invariant.2.2 dbAlice 1 "week" 650 "pw" 0

/-- C1 counterexample: in the wiring of main.py, the sweep calls
`MatchService.check_for_matches_with_target_odds` and then
`MatchService.mark_match_as_notified` on the id of each reported entry.
`MatchService.mark_match_as_notified` is a no-op (`pass`), and the
range-filter sweep never consults any notified flag, so after a
successful `mark_notified("42")` the entry with id "42" appears again in
the very next sweep — refuting "that match id never again appears in the
results of any subsequent find_qualifying call
(get_matches_with_target_odds / check_for_matches_with_target_odds)". -/
theorem mark_notified_reappears_in_range_path :
    MatchService.mark_match_as_notified stFresh "42" = stFresh ∧
    (MatchService.check_for_matches_with_target_odds stFresh
        FootballApiClient.ApiResult.requestFailed 0 (1 : Rat) 5).2 = [entryE] ∧
    entryE.id = "42" := by
  refine ⟨rfl, ?_, rfl⟩
  decide

/-- C1 (amended): for the persisted path the claim holds — once
`DatabaseService.mark_match_as_notified(id)` succeeds on a persisted
match id (the row exists; row ids are distinct and below the id
allocator, as primary keys are), that id never again appears in any
subsequent `get_matches_with_target_odds` result, in every reachable
later state and at every sweep instant; and repeated
`mark_match_as_notified` calls on the same id are no-ops. The
range-filter path `check_for_matches_with_target_odds`, however, does
not consult the notified flag (see the counterexample). -/
theorem mark_notified_persisted_exactly_once :
    (∀ (db : DB) (i : Nat) (t0 t' : Int) (db' : DB),
        db.match_rows.Pairwise (fun a b => a.id ≠ b.id) →
        (∀ m ∈ db.match_rows, m.id < db.next_match_id) →
        (∃ m ∈ db.match_rows, m.id = i) →
        Reach t0 (DatabaseService.mark_match_as_notified db i) t' db' →
        ∀ (now : Int) (m : MatchRow),
          m ∈ DatabaseService.get_matches_with_target_odds db' now →
          m.id ≠ i) ∧
    (∀ (db : DB) (i : Nat),
        DatabaseService.mark_match_as_notified
          (DatabaseService.mark_match_as_notified db i) i =
        DatabaseService.mark_match_as_notified db i) := by
  constructor
  · intro db i t0 t' db' hpw hbound hex hr now m hm
    exact notifiedAt_excluded
      (reach_preserves_notifiedAt hr
        (mark_establishes_notifiedAt db i hpw hbound hex)) now m hm
  · intro db i
    have hidem := updFirst_idem (fun m : MatchRow => m.id == i)
      (fun m => { m with notification_sent := true })
      (fun a => rfl) (fun a => rfl) db.match_rows
    simp [DatabaseService.mark_match_as_notified, hidem]

/-- Witness for the amended C1: marking the persisted match with id 1
keeps the (flagged) row out of the target-odds sweep, and a second mark
is a no-op. -/
theorem mark_notified_persisted_exactly_once_witness :
    ({ rowM with notification_sent := true } ∉
      DatabaseService.get_matches_with_target_odds
        (DatabaseService.mark_match_as_notified dbMatch 1) 0) ∧
    DatabaseService.mark_match_as_notified
      (DatabaseService.mark_match_as_notified dbMatch 1) 1 =
    DatabaseService.mark_match_as_notified dbMatch 1 := by
  constructor
  · intro hmem
    exact (mark_notified_persisted_exactly_once.1 dbMatch 1 0 0 _
      (by simp [dbMatch, dbEmpty])
      (by simp [dbMatch, dbEmpty, rowM])
      ⟨rowM, by simp [dbMatch, dbEmpty], rfl⟩
      (Reach.refl 0 _) 0 _ hmem) rfl
  · exact mark_notified_persisted_exactly_once.2 dbMatch 1

/-- C2: the first `mark_payment_as_paid` on an existing unsettled payment
link returns the row with the settled flag set; after that, in every
reachable later state (including further link creations with any token),
redeeming the same token returns none; redeeming an unknown token
returns none and changes nothing; and the settled flag of the first row
carrying a token never transitions back to false under any operation.
Hence each token funds at most one ledger extension (main.py only calls
`create_subscription` when the redeem returned a row). -/
theorem redeem_settles_exactly_once :
    (∀ (db : DB) (tok : String) (l : PaymentLink),
        db.payment_links.find? (DatabaseService.tokenMatches tok) = some l →
        l.paid = false →
        (DatabaseService.mark_payment_as_paid db tok).2 =
          some { l with paid := true } ∧
        ∀ (t0 t' : Int) (db' : DB),
          Reach t0 (DatabaseService.mark_payment_as_paid db tok).1 t' db' →
          (DatabaseService.mark_payment_as_paid db' tok).2 = none) ∧
    (∀ (db : DB) (tok : String),
        db.payment_links.find? (DatabaseService.tokenMatches tok) = none →
        DatabaseService.mark_payment_as_paid db tok = (db, none)) ∧
    (∀ (t0 : Int) (db : DB) (t' : Int) (db' : DB) (tok : String),
        Reach t0 db t' db' → PaidAt db tok → PaidAt db' tok) := by
  refine ⟨?_, ?_, fun t0 db t' db' tok hr h => reach_preserves_paidAt hr h⟩
  · intro db tok l hf hp
    constructor
    · unfold DatabaseService.mark_payment_as_paid
      simp [hf, hp]
    · intro t0 t' db' hr
      have hpaid := reach_preserves_paidAt hr
        (mark_payment_establishes_paidAt db tok hf hp)
      rw [paidAt_redeem_none hpaid]
  · intro db tok hf
    unfold DatabaseService.mark_payment_as_paid
    simp [hf]

/-- Witness for C2: redeeming the concrete token "tok123" once returns
the settled row, a second redeem returns none, and an unknown token
returns none. -/
theorem redeem_settles_exactly_once_witness :
    (DatabaseService.mark_payment_as_paid dbLink "tok123").2 =
      some { linkL with paid := true } ∧
    (DatabaseService.mark_payment_as_paid
      (DatabaseService.mark_payment_as_paid dbLink "tok123").1 "tok123").2 =
      none ∧
    DatabaseService.mark_payment_as_paid dbLink "nope" = (dbLink, none) := by
  have h := redeem_settles_exactly_once.1 dbLink "tok123" linkL rfl rfl
  exact ⟨h.1, h.2 0 0 _ (Reach.refl 0 _),
    redeem_settles_exactly_once.2.1 dbLink "nope" rfl⟩

/-- C3: for a user with an active subscription, `create_subscription`
with a valid plan kind reports a renewal, sets the row's end instant to
max(now, existing.end) + duration(plan_kind), accumulates the amount into
price_paid, replaces payment_id, persists the updated row, and never
decreases the end instant — so over any sequence of such calls the end
instant is non-decreasing. -/
theorem create_subscription_renewal_formula :
    ∀ (db : DB) (uid : Nat) (k : String) (amount : Rat) (pid : String)
      (now : Int) (s : Subscription),
      DatabaseService.get_active_subscription db uid now = some s →
      (k = "week" ∨ k = "two_weeks" ∨ k = "month") →
      (DatabaseService.create_subscription db uid k amount pid now).2.2 = true ∧
      (DatabaseService.create_subscription db uid k amount pid now).2.1.end_date =
        max now s.end_date + DatabaseService.subscription_duration k ∧
      (DatabaseService.create_subscription db uid k amount pid now).2.1.price_paid =
        s.price_paid + amount ∧
      (DatabaseService.create_subscription db uid k amount pid now).2.1.payment_id = pid ∧
      (DatabaseService.create_subscription db uid k amount pid now).2.1 ∈
        (DatabaseService.create_subscription db uid k amount pid now).1.subscriptions ∧
      s.end_date ≤
        (DatabaseService.create_subscription db uid k amount pid now).2.1.end_date := by
  intro db uid k amount pid now s hact hk
  unfold DatabaseService.create_subscription
  rw [hact]
  refine ⟨rfl, rfl, rfl, rfl, updFirst_mem_of_find? _ _ hact, ?_⟩
  show s.end_date ≤ max now s.end_date + DatabaseService.subscription_duration k
  have hdur : 0 < DatabaseService.subscription_duration k := by
    rcases hk with rfl | rfl | rfl <;> decide
  have hmax : s.end_date ≤ max now s.end_date := le_max_right _ _
  linarith

/-- Witness for C3: Alice holds a one-week subscription ending at instant
604800; a "two_weeks" renewal at instant 259200 (day 3) reports a
renewal, ends at max(259200, 604800) + 14 days, accumulates the price,
and does not decrease the end instant. -/
theorem create_subscription_renewal_formula_witness :
    (DatabaseService.create_subscription dbAliceActive 1 "two_weeks" 1300 "p2" 259200).2.2 = true ∧
    (DatabaseService.create_subscription dbAliceActive 1 "two_weeks" 1300 "p2" 259200).2.1.end_date =
      max 259200 subWeek.end_date + DatabaseService.subscription_duration "two_weeks" ∧
    (DatabaseService.create_subscription dbAliceActive 1 "two_weeks" 1300 "p2" 259200).2.1.price_paid =
      subWeek.price_paid + 1300 ∧
    (DatabaseService.create_subscription dbAliceActive 1 "two_weeks" 1300 "p2" 259200).2.1.payment_id = "p2" ∧
    (DatabaseService.create_subscription dbAliceActive 1 "two_weeks" 1300 "p2" 259200).2.1 ∈
      (DatabaseService.create_subscription dbAliceActive 1 "two_weeks" 1300 "p2" 259200).1.subscriptions ∧
    subWeek.end_date ≤
      (DatabaseService.create_subscription dbAliceActive 1 "two_weeks" 1300 "p2" 259200).2.1.end_date :=
  create_subscription_renewal_formula dbAliceActive 1 "two_weeks" 1300 "p2"
    259200 subWeek rfl (Or.inr (Or.inl rfl))

/-- C4 counterexample: Alice's active subscription has kind "week"; a
paid-flow renewal with kind "two_weeks" via `create_subscription` leaves
the row's subscription_type at "week" — refuting the claim that the paid
flow updates the plan kind to the newly purchased kind. -/
theorem paid_renewal_keeps_plan_kind :
    (DatabaseService.create_subscription dbAliceActive 1 "two_weeks" 1300 "p2" 259200).2.1.subscription_type = "week" ∧
    (DatabaseService.create_subscription dbAliceActive 1 "two_weeks" 1300 "p2" 259200).2.1.subscription_type ≠ "two_weeks" := by
  exact ⟨rfl, by decide⟩

/-- C4 (amended): only the admin flow updates the plan kind on renewal —
`admin_create_subscription` replaces the row's subscription_type with the
newly granted kind, while the paid flow `create_subscription` leaves the
existing subscription_type unchanged on renewal. -/
theorem renewal_plan_kind_update :
    (∀ (db : DB) (un k uu : String) (now : Int) (u : UserRow)
        (dp : Int × Rat) (s : Subscription),
        DatabaseService.find_user_by_username db un = some u →
        DatabaseService.admin_plan k = some dp →
        DatabaseService.get_active_subscription db u.id now = some s →
        (DatabaseService.admin_create_subscription db un k uu now).2 =
          some (DatabaseService.extendAdmin now dp.1 dp.2 k ("admin_" ++ uu) s,
                u.telegram_id, true) ∧
        (DatabaseService.extendAdmin now dp.1 dp.2 k ("admin_" ++ uu) s).subscription_type = k) ∧
    (∀ (db : DB) (uid : Nat) (k : String) (amount : Rat) (pid : String)
        (now : Int) (s : Subscription),
        DatabaseService.get_active_subscription db uid now = some s →
        (DatabaseService.create_subscription db uid k amount pid now).2.1.subscription_type =
          s.subscription_type) := by
  constructor
  · intro db un k uu now u dp s hu hp hact
    unfold DatabaseService.admin_create_subscription
    simp only [hu, hp, hact]
    exact ⟨trivial, rfl⟩
  · intro db uid k amount pid now s hact
    unfold DatabaseService.create_subscription
    rw [hact]
    rfl

/-- Witness for the amended C4: an admin "two_weeks" renewal of Alice's
"week" subscription carries subscription_type "two_weeks", while the
paid-flow renewal keeps subscription_type "week". -/
theorem renewal_plan_kind_update_witness :
    ((DatabaseService.admin_create_subscription dbAliceActive "alice" "two_weeks" "u1" 259200).2 =
        some (DatabaseService.extendAdmin 259200 (1209600, (1300 : Rat)).1
                (1209600, (1300 : Rat)).2 "two_weeks" ("admin_" ++ "u1") subWeek,
              aliceU.telegram_id, true) ∧
      (DatabaseService.extendAdmin 259200 (1209600, (1300 : Rat)).1
          (1209600, (1300 : Rat)).2 "two_weeks" ("admin_" ++ "u1") subWeek).subscription_type =
        "two_weeks") ∧
    (DatabaseService.create_subscription dbAliceActive 1 "two_weeks" 1300 "p2" 259200).2.1.subscription_type =
      subWeek.subscription_type := by
  refine ⟨?_, ?_⟩
  · exact renewal_plan_kind_update.1 dbAliceActive "alice" "two_weeks" "u1"
      259200 aliceU (1209600, 1300) subWeek (by decide) (by decide) rfl
  · exact renewal_plan_kind_update.2 dbAliceActive 1 "two_weeks" 1300 "p2"
      259200 subWeek rfl

/-- C5 counterexample: `create_subscription` with the unknown plan kind
"vip_year" does NOT fail — it mutates the ledger, creating a row with the
default one-week duration (end = 0 + 604800) — refuting the claim that
both flows reject unknown plan kinds without mutation. -/
theorem invalid_plan_still_mutates :
    (DatabaseService.create_subscription dbAlice 1 "vip_year" 500 "p9" 0).1 ≠ dbAlice ∧
    (DatabaseService.create_subscription dbAlice 1 "vip_year" 500 "p9" 0).2.1.end_date = 604800 ∧
    (DatabaseService.create_subscription dbAlice 1 "vip_year" 500 "p9" 0).2.1 ∈
      (DatabaseService.create_subscription dbAlice 1 "vip_year" 500 "p9" 0).1.subscriptions := by
  refine ⟨?_, rfl, ?_⟩
  · intro h
    have : (DatabaseService.create_subscription dbAlice 1 "vip_year" 500 "p9" 0).1.subscriptions.length =
        dbAlice.subscriptions.length := by rw [h]
    simp [DatabaseService.create_subscription, dbAlice, dbEmpty,
      DatabaseService.get_active_subscription] at this
  · simp [DatabaseService.create_subscription, dbAlice, dbEmpty,
      DatabaseService.get_active_subscription]

/-- C5 (amended): a plan kind outside {week, two_weeks, month} is
rejected with no mutation only by the admin flow
(`admin_create_subscription` returns the untouched state and none);
the paid flow `create_subscription` silently falls back to the one-week
duration and performs its normal mutation. -/
theorem invalid_plan_handling :
    ∀ (k : String), k ≠ "week" → k ≠ "two_weeks" → k ≠ "month" →
      (∀ (db : DB) (un uu : String) (now : Int),
          DatabaseService.admin_create_subscription db un k uu now = (db, none)) ∧
      DatabaseService.subscription_duration k = 7 * secondsPerDay := by
  intro k h1 h2 h3
  constructor
  · intro db un uu now
    unfold DatabaseService.admin_create_subscription
    cases hu : DatabaseService.find_user_by_username db un with
    | none => rfl
    | some u => simp [hu, DatabaseService.admin_plan, h1, h2, h3]
  · simp [DatabaseService.subscription_duration, h1, h2, h3]

/-- Witness for the amended C5: the unknown kind "vip_year" makes the
admin flow return the untouched state with none, while the paid-flow
duration table falls back to one week. -/
theorem invalid_plan_handling_witness :
    DatabaseService.admin_create_subscription dbAlice "alice" "vip_year" "u1" 0 =
      (dbAlice, none) ∧
    DatabaseService.subscription_duration "vip_year" = 7 * secondsPerDay := by
  have h := invalid_plan_handling "vip_year" (by decide) (by decide) (by decide)
  exact ⟨h.1 dbAlice "alice" "u1" 0, h.2⟩

/-- C8: `revoke_subscription` on a user with an active subscription
forces that row's end instant to now − 1 minute (strictly in the past),
so an immediately following `get_active_subscription` returns none; it
reports success by returning the user's telegram id; with no matching
user or no active row it returns none and changes nothing. (The
at-most-one-active hypothesis is the ledger invariant of C6.) -/
theorem revoke_subscription_immediate :
    (∀ (db : DB) (un : String) (now : Int),
        DatabaseService.find_user_by_username db un = none →
        DatabaseService.revoke_subscription db un now = (db, none)) ∧
    (∀ (db : DB) (un : String) (now : Int) (u : UserRow),
        DatabaseService.find_user_by_username db un = some u →
        (DatabaseService.get_active_subscription db u.id now = none →
          DatabaseService.revoke_subscription db un now = (db, none)) ∧
        ∀ (s : Subscription),
          DatabaseService.get_active_subscription db u.id now = some s →
          AtMostOneActive now db →
          (DatabaseService.revoke_subscription db un now).2 = some u.telegram_id ∧
          { s with end_date := now - minuteSeconds } ∈
            (DatabaseService.revoke_subscription db un now).1.subscriptions ∧
          now - minuteSeconds < now ∧
          DatabaseService.get_active_subscription
            (DatabaseService.revoke_subscription db un now).1 u.id now = none) := by
  constructor
  · intro db un now hu
    unfold DatabaseService.revoke_subscription
    simp [hu]
  · intro db un now u hu
    constructor
    · intro hact
      unfold DatabaseService.revoke_subscription
      simp [hu, hact]
    · intro s hact hinv
      unfold DatabaseService.revoke_subscription
      simp only [hu, hact]
      refine ⟨trivial, ?_, by simp only [minuteSeconds]; omega, ?_⟩
      · exact updFirst_mem_of_find? _ _ hact
      · apply find?_updFirst_none
        · exact hinv u.id
        · intro a
          have hlt : ¬ (now ≤ now - minuteSeconds) := by
            simp only [minuteSeconds]; omega
          simp [DatabaseService.isActive, hlt]

/-- Witness for C8: revoking Alice at instant 100, while her subscription
runs to 604800, returns her telegram id, stores a row ending at 40
(= 100 − 60, in the past), and makes `get_active_subscription` return
none at the same instant. -/
theorem revoke_subscription_immediate_witness :
    (DatabaseService.revoke_subscription dbAliceActive "alice" 100).2 =
      some aliceU.telegram_id ∧
    { subWeek with end_date := 100 - minuteSeconds } ∈
      (DatabaseService.revoke_subscription dbAliceActive "alice" 100).1.subscriptions ∧
    (100 : Int) - minuteSeconds < 100 ∧
    DatabaseService.get_active_subscription
      (DatabaseService.revoke_subscription dbAliceActive "alice" 100).1 1 100 = none ∧
    DatabaseService.revoke_subscription dbAlice "alice" 100 = (dbAlice, none) := by
  have h := ((revoke_subscription_immediate.2 dbAliceActive "alice" 100 aliceU
      (by decide)).2 subWeek rfl
    (fun uid => by
      simp only [activeCount, dbAliceActive, dbEmpty]
      cases hq : DatabaseService.isActive uid 100 subWeek <;>
        simp [List.filter_cons, hq]))
  exact ⟨h.1, h.2.1, h.2.2.1, h.2.2.2,
    (revoke_subscription_immediate.2 dbAlice "alice" 100 aliceU (by decide)).1 rfl⟩

/-! ## Cache behavior lemmas -/

theorem refreshCache_empty (st : MatchService.ServiceState)
    (api : FootballApiClient.ApiResult) (now : Int)
    (h : FootballApiClient.fetch_matches api = []) :
    MatchService.refreshCache st api now = (st, st.cache) := by
  unfold MatchService.refreshCache
  rw [h]
  rfl

theorem refreshCache_nonempty (st : MatchService.ServiceState)
    (api : FootballApiClient.ApiResult) (now : Int)
    (h : FootballApiClient.fetch_matches api ≠ []) :
    MatchService.refreshCache st api now =
      ({ st with cache := FootballApiClient.fetch_matches api,
                 last_update := some now },
       FootballApiClient.fetch_matches api) := by
  unfold MatchService.refreshCache
  cases hm : FootballApiClient.fetch_matches api with
  | nil => exact absurd hm h
  | cons a l => rfl

theorem fetch_matches_expired (st : MatchService.ServiceState)
    (api : FootballApiClient.ApiResult) (now : Int) (h : Expired st now) :
    MatchService.fetch_matches st api now =
      MatchService.refreshCache st api now := by
  unfold MatchService.fetch_matches
  rcases h with h | ⟨lu, hlu, httl⟩
  · rw [h]
  · simp only [hlu]
    rw [if_neg (by omega)]

theorem fetch_matches_fresh (st : MatchService.ServiceState)
    (api : FootballApiClient.ApiResult) (now lu : Int)
    (hlu : st.last_update = some lu) (hfresh : now - lu < st.cache_ttl) :
    MatchService.fetch_matches st api now = (st, st.cache) := by
  unfold MatchService.fetch_matches
  simp only [hlu]
  rw [if_pos hfresh]

/-- C7 counterexample: at instant 1000 the cache (filled at instant 0,
TTL 600) is expired, and the upstream fetch succeeds (HTTP 200) with an
empty payload; yet `fetch_matches` returns the state completely
unchanged — the cache is not replaced by the fresh (empty) snapshot and
the age clock is not reset — refuting "on a successful upstream fetch
the cache is replaced and the age clock reset". -/
theorem fetch_success_empty_not_replacing :
    MatchService.fetch_matches stFresh (FootballApiClient.ApiResult.ok []) 1000 =
      (stFresh, [entryE]) ∧
    stFresh.last_update = some 0 ∧ stFresh.cache_ttl ≤ 1000 - 0 ∧
    stFresh.cache ≠ [] ∧ stFresh.last_update ≠ some 1000 := by
  refine ⟨?_, rfl, by decide, by decide, by decide⟩
  decide

/-- C7 (amended): if the cached snapshot's age is below the TTL it is
returned unchanged without consulting the upstream response; otherwise an
upstream fetch yielding a non-empty list replaces the cache and resets
the age clock; an upstream failure — and likewise a successful fetch of
an empty list — leaves the state unchanged and returns the existing
cache, even if expired; every client failure path (missing key, non-200
status, raised exception) yields the empty list rather than an
exception; and if no fetch has ever succeeded (empty cache, no
last_update), the result is the empty sequence. -/
theorem fetch_matches_cache_contract :
    (∀ (st : MatchService.ServiceState) (api : FootballApiClient.ApiResult)
        (now lu : Int), st.last_update = some lu →
        now - lu < st.cache_ttl →
        MatchService.fetch_matches st api now = (st, st.cache)) ∧
    (∀ (st : MatchService.ServiceState) (api : FootballApiClient.ApiResult)
        (now : Int), Expired st now →
        FootballApiClient.fetch_matches api ≠ [] →
        MatchService.fetch_matches st api now =
          ({ st with cache := FootballApiClient.fetch_matches api,
                     last_update := some now },
           FootballApiClient.fetch_matches api)) ∧
    (∀ (st : MatchService.ServiceState) (api : FootballApiClient.ApiResult)
        (now : Int), Expired st now →
        FootballApiClient.fetch_matches api = [] →
        MatchService.fetch_matches st api now = (st, st.cache)) ∧
    ((∀ (s : Int), FootballApiClient.fetch_matches
        (FootballApiClient.ApiResult.httpError s) = []) ∧
      FootballApiClient.fetch_matches FootballApiClient.ApiResult.requestFailed = [] ∧
      FootballApiClient.fetch_matches FootballApiClient.ApiResult.noApiKey = []) ∧
    (∀ (st : MatchService.ServiceState) (api : FootballApiClient.ApiResult)
        (now : Int), st.last_update = none → st.cache = [] →
        FootballApiClient.fetch_matches api = [] →
        (MatchService.fetch_matches st api now).2 = []) := by
  refine ⟨fetch_matches_fresh, ?_, ?_, ⟨fun s => rfl, rfl, rfl⟩, ?_⟩
  · intro st api now hexp hne
    rw [fetch_matches_expired st api now hexp, refreshCache_nonempty st api now hne]
  · intro st api now hexp he
    rw [fetch_matches_expired st api now hexp, refreshCache_empty st api now he]
  · intro st api now hlu hc he
    rw [fetch_matches_expired st api now (Or.inl hlu),
      refreshCache_empty st api now he]
    exact hc

/-- Witness for the amended C7: a fresh cache is served unchanged; an
expired cache with a failing upstream is served unchanged; an expired
cache with a non-empty upstream payload is replaced with the clock
reset; and a never-refreshed empty state yields the empty sequence. -/
theorem fetch_matches_cache_contract_witness :
    MatchService.fetch_matches stFresh FootballApiClient.ApiResult.requestFailed 100 =
      (stFresh, stFresh.cache) ∧
    MatchService.fetch_matches stFresh FootballApiClient.ApiResult.requestFailed 1000 =
      (stFresh, stFresh.cache) ∧
    MatchService.fetch_matches stFresh (FootballApiClient.ApiResult.ok [entryE]) 1000 =
      ({ stFresh with cache := [entryE], last_update := some 1000 }, [entryE]) ∧
    (MatchService.fetch_matches
        { cache := [], last_update := none, cache_ttl := 600 }
        FootballApiClient.ApiResult.requestFailed 50).2 = [] := by
  refine ⟨?_, ?_, ?_, ?_⟩
  · exact fetch_matches_cache_contract.1 stFresh _ 100 0 rfl (by decide)
  · exact fetch_matches_cache_contract.2.2.1 stFresh _ 1000
      (Or.inr ⟨0, rfl, by decide⟩) rfl
  · exact fetch_matches_cache_contract.2.1 stFresh
      (FootballApiClient.ApiResult.ok [entryE]) 1000
      (Or.inr ⟨0, rfl, by decide⟩) (by decide)
  · exact fetch_matches_cache_contract.2.2.2.2 _ _ 50 rfl rfl rfl

/-- C9: an upstream fetch that succeeds but returns an empty list is
treated exactly like a failure: `fetch_matches` behaves identically on
`ok []` and on a failed request — in particular, on an expired cache the
state (cache and last_update alike) is left unchanged and the stale
cache is returned, so a successful-but-empty snapshot never replaces a
non-empty cache and never resets the TTL clock. -/
theorem empty_payload_treated_as_failure :
    (∀ (st : MatchService.ServiceState) (now : Int),
        MatchService.fetch_matches st (FootballApiClient.ApiResult.ok []) now =
        MatchService.fetch_matches st FootballApiClient.ApiResult.requestFailed now) ∧
    (∀ (st : MatchService.ServiceState) (now : Int), Expired st now →
        MatchService.fetch_matches st (FootballApiClient.ApiResult.ok []) now =
          (st, st.cache)) := by
  constructor
  · intro st now
    rfl
  · intro st now hexp
    rw [fetch_matches_expired st _ now hexp,
      refreshCache_empty st (FootballApiClient.ApiResult.ok []) now rfl]

/-- Witness for C9: on the concrete expired state the empty-success
response leaves everything unchanged and behaves like a failed request. -/
theorem empty_payload_treated_as_failure_witness :
    MatchService.fetch_matches stFresh (FootballApiClient.ApiResult.ok []) 1000 =
      MatchService.fetch_matches stFresh FootballApiClient.ApiResult.requestFailed 1000 ∧
    MatchService.fetch_matches stFresh (FootballApiClient.ApiResult.ok []) 1000 =
      (stFresh, stFresh.cache) :=
  ⟨empty_payload_treated_as_failure.1 stFresh 1000,
   empty_payload_treated_as_failure.2 stFresh 1000 (Or.inr ⟨0, rfl, by decide⟩)⟩

/-- C10: the range-filter path inspects only the first listed bookmaker
and only the first two outcomes of its first "h2h" market: (1) the
qualification of an entry does not depend on bookmakers after the first;
(2) when the first bookmaker has an h2h market with at least two
outcomes, qualification is exactly "kickoff parseable and not in the
past, and one of the first two prices in [min_odds, max_odds]" —
independent of the remaining outcomes; (3) when the first bookmaker has
no h2h market, or its first h2h market has fewer than two outcomes, the
entry is excluded outright; and (4) the result list of
`check_for_matches_with_target_odds` is exactly the fetched snapshot
filtered by this per-entry test. -/
theorem range_filter_first_bookmaker_only :
    (∀ (now : Int) (mn mx : Rat) (i : String) (ct : Option Int)
        (b : Bookmaker) (bs : List Bookmaker),
        MatchService.entryQualifies now mn mx ⟨i, ct, b :: bs⟩ =
        MatchService.entryQualifies now mn mx ⟨i, ct, [b]⟩) ∧
    (∀ (now : Int) (mn mx : Rat) (e : FeedEntry) (b : Bookmaker)
        (bs : List Bookmaker) (mkt : Market) (o1 o2 : Outcome)
        (rest : List Outcome),
        e.bookmakers = b :: bs →
        MatchService.findH2h b.markets = some mkt →
        mkt.outcomes = o1 :: o2 :: rest →
        (MatchService.entryQualifies now mn mx e = true ↔
          (∃ t, e.commence_time = some t ∧ ¬ t < now) ∧
          ((mn ≤ MatchService.priceVal o1 ∧ MatchService.priceVal o1 ≤ mx) ∨
           (mn ≤ MatchService.priceVal o2 ∧ MatchService.priceVal o2 ≤ mx)))) ∧
    (∀ (now : Int) (mn mx : Rat) (e : FeedEntry) (b : Bookmaker)
        (bs : List Bookmaker),
        e.bookmakers = b :: bs →
        (MatchService.findH2h b.markets = none ∨
          ∃ mkt, MatchService.findH2h b.markets = some mkt ∧
            mkt.outcomes.length < 2) →
        MatchService.entryQualifies now mn mx e = false) ∧
    (∀ (st : MatchService.ServiceState) (api : FootballApiClient.ApiResult)
        (now : Int) (mn mx : Rat) (e : FeedEntry),
        e ∈ (MatchService.check_for_matches_with_target_odds st api now mn mx).2 ↔
        e ∈ (MatchService.fetch_matches st api now).2 ∧
          MatchService.entryQualifies now mn mx e = true) := by
  refine ⟨?_, ?_, ?_, ?_⟩
  · intro now mn mx i ct b bs
    rfl
  · intro now mn mx e b bs mkt o1 o2 rest hb hm ho
    obtain ⟨i, ct, bks⟩ := e
    simp only at hb
    subst hb
    cases ct with
    | none => simp [MatchService.entryQualifies]
    | some t =>
        by_cases ht : t < now
        · simp [MatchService.entryQualifies, ht]
        · simp [MatchService.entryQualifies, ht, hm, ho]
          intro _
          omega
  · intro now mn mx e b bs hb hcase
    obtain ⟨i, ct, bks⟩ := e
    simp only at hb
    subst hb
    cases ct with
    | none => rfl
    | some t =>
        by_cases ht : t < now
        · simp [MatchService.entryQualifies, ht]
        · rcases hcase with hnone | ⟨mkt, hm, hlen⟩
          · simp [MatchService.entryQualifies, ht, hnone]
          · cases houts : mkt.outcomes with
            | nil => simp [MatchService.entryQualifies, ht, hm, houts]
            | cons o1 tail =>
                cases tail with
                | nil => simp [MatchService.entryQualifies, ht, hm, houts]
                | cons o2 rest =>
                    rw [houts] at hlen
                    simp only [List.length_cons] at hlen
                    omega
  · intro st api now mn mx e
    unfold MatchService.check_for_matches_with_target_odds
    simp [List.mem_filter]

def mktOut : Market :=
  { key := "h2h", outcomes := [⟨"x", some 9⟩, ⟨"y", some 7⟩] }

def bkOut : Bookmaker := { title := "first", markets := [mktOut] }

def entryTwo : FeedEntry :=
  { id := "7", commence_time := some 100, bookmakers := [bkOut, bk1] }

/-- Witness for C10: `entryTwo` carries a first bookmaker whose two h2h
prices (9 and 7) fall outside [1, 5] and a second bookmaker with an
in-range price; the entry is excluded all the same (only the first
bookmaker counts); an entry whose first bookmaker lacks any h2h market
is excluded; and the in-range `entryE` is a member of the filtered
sweep result. -/
theorem range_filter_first_bookmaker_only_witness :
    MatchService.entryQualifies 0 (1 : Rat) 5 entryTwo =
      MatchService.entryQualifies 0 (1 : Rat) 5 ⟨"7", some 100, [bkOut]⟩ ∧
    MatchService.entryQualifies 0 (1 : Rat) 5 entryTwo = false ∧
    MatchService.entryQualifies 0 (1 : Rat) 5 ⟨"8", some 100, [⟨"nb", []⟩]⟩ = false ∧
    entryE ∈ (MatchService.check_for_matches_with_target_odds stFresh
        FootballApiClient.ApiResult.requestFailed 0 (1 : Rat) 5).2 := by
  have h1 := range_filter_first_bookmaker_only.1 0 (1 : Rat) 5 "7" (some 100)
    bkOut [bk1]
  have h2 := range_filter_first_bookmaker_only.2.1 0 (1 : Rat) 5 entryTwo
    bkOut [bk1] mktOut ⟨"x", some 9⟩ ⟨"y", some 7⟩ [] rfl rfl rfl
  have h3 := range_filter_first_bookmaker_only.2.2.1 0 (1 : Rat) 5
    ⟨"8", some 100, [⟨"nb", []⟩]⟩ ⟨"nb", []⟩ [] rfl (Or.inl rfl)
  have h4 := (range_filter_first_bookmaker_only.2.2.2 stFresh
    FootballApiClient.ApiResult.requestFailed 0 (1 : Rat) 5 entryE).mpr
    ⟨by decide, by decide⟩
  refine ⟨h1, ?_, h3, h4⟩
  cases hq : MatchService.entryQualifies 0 (1 : Rat) 5 entryTwo with
  | false => rfl
  | true =>
      exfalso
      rcases (h2.mp hq).2 with ⟨h1a, h2a⟩ | ⟨h1b, h2b⟩
      · exact absurd h2a (by decide)
      · exact absurd h2b (by decide)

end BotFootball
